import Mathlib

/-!
Verification of the File Integrity Checker (src/file_integrity_checker.py).

Shallow embedding: the snapshot/compare engine is translated into Lean
definitions.  External collaborators (hashlib, pathlib, the filesystem) are
modelled by explicit parameters:

* hashlib is a `HashModel`: a list of recognized algorithm names together with
  an abstract finalization function `digestOf` from accumulated bytes to a hex
  string.  `hashlib.new(algo)` raising ValueError("unsupported hash type ...")
  for an unrecognized name is modelled by the membership test; `h.update` over
  a streaming state whose finalization depends only on the concatenation of
  the fed chunks is modelled by accumulating the byte list.
* the filesystem seen by one scan is a list of `FSEntry` (the entries yielded
  by `base_dir.rglob`), each carrying its path relative to the root, whether
  it is a regular file, and the (possibly failing) results of `p.stat()` and
  of opening/reading its bytes.
* Python set iteration order (for `old_keys & new_keys` in `compare`) is an
  explicit `order` parameter: a duplicate-free enumeration of the key
  intersection in an arbitrary order, exactly the guarantee CPython gives.

Bytes are `Nat`, sizes are `Nat`, mtimes are modelled as `Int` (the Python
float is never computed with, only stored and compared for nothing).
-/

namespace FIC

/-- A per-file record of a snapshot: either
the dict \x7b"hash": h, "size": s, "mtime": t\x7d produced on success, or the dict
\x7b"error": msg\x7d produced when stat or hashing raised (line 47 of the source). -/
inductive FileRecord where
  | ok (hash : String) (size : Nat) (mtime : Int)
  | err (message : String)
deriving DecidableEq, Repr

/-- The value of record.get("hash"): the digest string for a success record,
none (Python None) for an error record, which has no "hash" key. -/
def FileRecord.hashOpt : FileRecord → Option String
  | .ok h _ _ => some h
  | .err _ => none

/-- A snapshot: the dict from relative-path string to file record built by
scan_directory, embedded as an association list with the keys unique. -/
abbrev Snapshot := List (String × FileRecord)

/-- The Python set(d) of keys of a snapshot dict. -/
def keysFinset (s : Snapshot) : Finset String := (s.map Prod.fst).toFinset

/-- The value of d[k].get("hash") for snapshot d and key k: none when the
record is an error record (no "hash" key) and also when k is absent. -/
def hashAt (s : Snapshot) (k : String) : Option String :=
  match s.lookup k with
  | some r => r.hashOpt
  | none => none

/-- The triple returned by compare: the two Python sets added and deleted and
the Python list modified, in the order the loop appended to it. -/
structure DiffResult where
  added : Finset String
  deleted : Finset String
  modified : List String

/-- The compare function (lines 62-74): added = new_keys - old_keys,
deleted = old_keys - new_keys, and modified collects, in the iteration order
of the set old_keys & new_keys (the explicit parameter order), every key
whose old[k].get("hash") differs from new[k].get("hash"). -/
def compare (old new : Snapshot) (order : List String) : DiffResult :=
  { added := keysFinset new \ keysFinset old
    deleted := keysFinset old \ keysFinset new
    modified := order.filter fun k => decide (hashAt old k ≠ hashAt new k) }

/-- The parameter order faithfully enumerates the Python set
old_keys & new_keys: no duplicates, and as a set it is the key intersection. -/
def ValidOrder (old new : Snapshot) (order : List String) : Prop :=
  order.Nodup ∧ order.toFinset = keysFinset old ∩ keysFinset new

/-- The model of hashlib: the recognized algorithm names, and the finalized
hex digest as an abstract function of the algorithm and of the concatenation
of all bytes fed to the streaming state. -/
structure HashModel where
  supported : List String
  digestOf : String → List Nat → String

/-- CHUNK_SIZE = 1024 * 1024 (line 17). -/
def CHUNK_SIZE : Nat := 1024 * 1024

/-- The read loop of compute_hash: f.read(c) returns the next at-most-c bytes
and the loop stops on the empty read.  Fuel-indexed so the recursion is
structural; fuel = length of the remaining bytes always suffices when c > 0. -/
def chunkBytesAux : Nat → Nat → List Nat → List (List Nat)
  | 0, _, _ => []
  | _ + 1, _, [] => []
  | fuel + 1, c, b :: bs => (b :: bs).take c :: chunkBytesAux fuel c ((b :: bs).drop c)

/-- The sequence of chunks compute_hash reads from a file of the given bytes
with read size c. -/
def chunkBytes (c : Nat) (bytes : List Nat) : List (List Nat) :=
  chunkBytesAux bytes.length c bytes

/-- The hashlib streaming state after h.update(chunk) for each chunk in order,
starting from the fresh state: the concatenation of the chunks. -/
def hashlibFold (chunks : List (List Nat)) : List Nat :=
  chunks.foldl (fun acc c => acc ++ c) []

/-- compute_hash specialised to an explicit read size c: make the state with
hashlib.new(algo), feed the chunks of the content, finalize with hexdigest. -/
def computeHashChunked (M : HashModel) (algo : String) (c : Nat) (bytes : List Nat) :
    String :=
  M.digestOf algo (hashlibFold (chunkBytes c bytes))

/-- compute_hash (lines 20-28): hashlib.new(algo) raises first when the
algorithm is not recognized; otherwise the file's bytes (whose read may fail)
are streamed in CHUNK_SIZE blocks and the hex digest is returned. -/
def compute_hash (M : HashModel) (algo : String)
    (content : Except String (List Nat)) : Except String String :=
  if algo ∈ M.supported then
    content.map fun bytes => computeHashChunked M algo CHUNK_SIZE bytes
  else
    Except.error ("unsupported hash type " ++ algo)

deriving instance DecidableEq for Except

/-- One entry yielded by the rglob/glob traversal of the resolved root:
its path relative to the root, whether p.is_file() holds, and the outcomes of
p.stat() (size and mtime, or the raised error's message) and of opening and
reading its bytes (or the raised error's message). -/
structure FSEntry where
  rel : String
  isFile : Bool
  statRes : Except String (Nat × Int)
  content : Except String (List Nat)
deriving DecidableEq

/-- The record scan_directory stores for one regular file (lines 39-47):
p.stat() runs first, so its failure message wins; then compute_hash; any
raised exception e is caught and recorded as \x7b"error": str(e)\x7d. -/
def scanRecord (M : HashModel) (algo : String) (e : FSEntry) : FileRecord :=
  match e.statRes with
  | .error msg => FileRecord.err msg
  | .ok (sz, mt) =>
    match compute_hash M algo e.content with
    | .ok h => FileRecord.ok h sz mt
    | .error msg => FileRecord.err msg

/-- scan_directory (lines 31-49) over the traversal's entries: every entry
with p.is_file() gets a record under its relative path; nothing ever
propagates out of the per-file try/except. -/
def scan_directory (M : HashModel) (algo : String) (entries : List FSEntry) :
    Snapshot :=
  entries.filterMap fun e =>
    if e.isFile then some (e.rel, scanRecord M algo e) else none

/-- A path string is absolute when it starts with the separator (POSIX):
the startsWith "/" test, written on the character list. -/
def isAbsolutePath (p : String) : Bool :=
  match p.data with
  | [] => false
  | ch :: _ => ch == '/'

/-- The resolve() call of scan_directory line 32, modelled by POSIX path
resolution against the current working directory: an absolute path stands,
a relative one is anchored at the cwd.  (Symlink and dot-segment
normalization is irrelevant to the claims and omitted.) -/
def posixResolve (cwd p : String) : String :=
  if isAbsolutePath p then p else cwd ++ "/" ++ p

/-- The root the scanner actually walks: scan_directory immediately replaces
base_dir by base_dir.resolve() (line 32). -/
def scannerRoot (cwd target : String) : String := posixResolve cwd target

/-- The _meta object cmd_init persists (lines 79-84). -/
structure BaselineMeta where
  base_dir : String
  created_at : Int
  algo : String
deriving DecidableEq, Repr

/-- The metadata cmd_init writes: base_dir is str(Path(args.target)), the
target exactly as given on the command line — Path() stores the string
without consulting the working directory, so no resolution happens here
(lines 78-84). -/
def cmd_init_meta (target : String) (algo : String) (now : Int) : BaselineMeta :=
  { base_dir := target, created_at := now, algo := algo }

/-- The observable outcome of cmd_check: either the clean branch (prints
"No changes detected", sys.exit(0)) or the changed branch carrying the three
change collections it prints (lines 99-110). -/
inductive CheckOutcome where
  | clean
  | changed (added deleted : Finset String) (modified : List String)
deriving DecidableEq

/-- The branch cmd_check takes on a diff result (lines 99-110): Python's
if not (added or deleted or modified) is the test that all three collections
are empty (empty set and empty list are falsy). -/
def check_outcome (d : DiffResult) : CheckOutcome :=
  if d.added = ∅ ∧ d.deleted = ∅ ∧ d.modified = [] then
    CheckOutcome.clean
  else
    CheckOutcome.changed d.added d.deleted d.modified

/-- The process exit code of each cmd_check branch: sys.exit(0) line 101,
sys.exit(2) line 110. -/
def exitCode : CheckOutcome → Nat
  | .clean => 0
  | .changed _ _ _ => 2

/-- The unchanged keys of a comparison: keys common to both snapshots that
the loop did not classify as modified. -/
def unchangedKeys (old new : Snapshot) (order : List String) : Finset String :=
  (keysFinset old ∩ keysFinset new) \ (compare old new order).modified.toFinset

/-- Digest difference exactly as the spec words it: comparison is strictly
digest-to-digest, and an error record's absent digest counts as different
from any real digest and also from another error record's absent digest.
This is the spec's rule, not the code's, kept for comparison with compare. -/
def specDigestsDiffer : FileRecord → FileRecord → Bool
  | .ok h1 _ _, .ok h2 _ _ => h1 != h2
  | _, _ => true

/-- A concrete instance of the hashlib model, for evaluating the theorems on
closed inputs: the standard algorithm names, and a digest function that only
needs to be some function of algorithm and bytes. -/
def Mhashlib : HashModel :=
  { supported := ["md5", "sha1", "sha224", "sha256", "sha384", "sha512"]
    digestOf := fun _ bytes => toString bytes.length }

/-- A concrete readable regular file for closed evaluations. -/
def fileA : FSEntry :=
  { rel := "a.txt", isFile := true, statRes := Except.ok (5, 100)
    content := Except.ok [104, 101, 108, 108, 111] }

/-- A concrete regular file whose stat call raises, for closed evaluations. -/
def fileBad : FSEntry :=
  { rel := "b.txt", isFile := true
    statRes := Except.error "Permission denied"
    content := Except.error "Permission denied" }

/-- A concrete old snapshot with two entries, for closed evaluations. -/
def sampOld : Snapshot := [("a", FileRecord.ok "d1" 5 10), ("b", FileRecord.ok "d2" 6 11)]

/-- A concrete new snapshot in which both files changed content. -/
def sampNew : Snapshot := [("a", FileRecord.ok "d1x" 5 12), ("b", FileRecord.ok "d2x" 7 13)]

/-- A concrete snapshot holding an error record next to a normal record. -/
def sampErr : Snapshot := [("p", FileRecord.err "boom"), ("q", FileRecord.ok "h" 1 2)]

/-- Membership in the modified list of compare: exactly the keys of the
iteration order whose hash fields disagree. -/
theorem mem_modified (old new : Snapshot) (order : List String) (k : String) :
    k ∈ (compare old new order).modified ↔
      k ∈ order ∧ hashAt old k ≠ hashAt new k := by
  simp [compare, List.mem_filter]

/-- A valid iteration order contains a key iff the key is in both snapshots. -/
theorem validOrder_mem (old new : Snapshot) (order : List String)
    (hord : ValidOrder old new order) (k : String) :
    k ∈ order ↔ k ∈ keysFinset old ∧ k ∈ keysFinset new := by
  rw [← List.mem_toFinset, hord.2, Finset.mem_inter]

/-- C1 (counterexample): the claim says an error record's absent digest also
differs from another error record's absent digest, so a path whose record is
an error record in both snapshots must be classified modified.  On the code,
old[k].get("hash") and new[k].get("hash") are both None, None != None is
false, and the path is not modified: compare leaves modified empty here even
though the spec's digest-difference rule declares the records different. -/
theorem C1_counterexample :
    ValidOrder [("p", FileRecord.err "read error A")]
      [("p", FileRecord.err "read error B")] ["p"] ∧
    specDigestsDiffer (FileRecord.err "read error A")
      (FileRecord.err "read error B") = true ∧
    (compare [("p", FileRecord.err "read error A")]
      [("p", FileRecord.err "read error B")] ["p"]).modified = [] := by
  exact ⟨⟨by decide, by decide⟩, rfl, by decide⟩

/-- C1 (amended): for every valid iteration order, a path is classified
modified iff it lies in both snapshots and the two records' hash fields
differ as Options: an error record (hash field none) differs from every real
digest (some h), but two error records do not differ from each other; the
size and mtime fields never influence the classification. -/
theorem C1_modified_iff_digest_ne (old new : Snapshot) (order : List String)
    (hord : ValidOrder old new order) (k : String) :
    k ∈ (compare old new order).modified ↔
      k ∈ keysFinset old ∧ k ∈ keysFinset new ∧
        hashAt old k ≠ hashAt new k := by
  rw [mem_modified, validOrder_mem old new order hord]
  tauto

/-- C1 (witness): a path present in both snapshots whose digest changed from
a real digest to an absent one is classified modified. -/
theorem C1_witness :
    "p" ∈ (compare [("p", FileRecord.ok "h1" 1 0)] [("p", FileRecord.err "gone")]
      ["p"]).modified :=
  (C1_modified_iff_digest_ne [("p", FileRecord.ok "h1" 1 0)]
      [("p", FileRecord.err "gone")] ["p"] ⟨by decide, by decide⟩ "p").mpr
    ⟨by decide, by decide, by decide⟩

/-- C3: for every pair of snapshots and valid iteration order, added is
new minus old, deleted is old minus new, modified lands inside the key
intersection, the four classes (with unchanged the intersection keys not
modified) are pairwise disjoint, and their union is the union of the key
sets. -/
theorem C3_partition (old new : Snapshot) (order : List String)
    (hord : ValidOrder old new order) :
    (compare old new order).added = keysFinset new \ keysFinset old ∧
    (compare old new order).deleted = keysFinset old \ keysFinset new ∧
    (compare old new order).modified.toFinset ⊆ keysFinset old ∩ keysFinset new ∧
    Disjoint (compare old new order).added (compare old new order).deleted ∧
    Disjoint (compare old new order).added (compare old new order).modified.toFinset ∧
    Disjoint (compare old new order).added (unchangedKeys old new order) ∧
    Disjoint (compare old new order).deleted (compare old new order).modified.toFinset ∧
    Disjoint (compare old new order).deleted (unchangedKeys old new order) ∧
    Disjoint (compare old new order).modified.toFinset (unchangedKeys old new order) ∧
    (compare old new order).added ∪ (compare old new order).deleted ∪
        (compare old new order).modified.toFinset ∪ unchangedKeys old new order =
      keysFinset old ∪ keysFinset new := by
  have hmod : ∀ a, a ∈ (compare old new order).modified.toFinset →
      a ∈ keysFinset old ∧ a ∈ keysFinset new := by
    intro a ha
    rw [List.mem_toFinset, mem_modified] at ha
    exact (validOrder_mem old new order hord a).mp ha.1
  refine ⟨rfl, rfl, ?_, ?_, ?_, ?_, ?_, ?_, ?_, ?_⟩
  · intro a ha
    rw [Finset.mem_inter]
    exact hmod a ha
  · rw [Finset.disjoint_left]
    intro a ha hb
    rw [show (compare old new order).added = keysFinset new \ keysFinset old from rfl,
      Finset.mem_sdiff] at ha
    rw [show (compare old new order).deleted = keysFinset old \ keysFinset new from rfl,
      Finset.mem_sdiff] at hb
    exact ha.2 hb.1
  · rw [Finset.disjoint_left]
    intro a ha hb
    rw [show (compare old new order).added = keysFinset new \ keysFinset old from rfl,
      Finset.mem_sdiff] at ha
    exact ha.2 (hmod a hb).1
  · rw [Finset.disjoint_left]
    intro a ha hb
    rw [show (compare old new order).added = keysFinset new \ keysFinset old from rfl,
      Finset.mem_sdiff] at ha
    rw [unchangedKeys, Finset.mem_sdiff, Finset.mem_inter] at hb
    exact ha.2 hb.1.1
  · rw [Finset.disjoint_left]
    intro a ha hb
    rw [show (compare old new order).deleted = keysFinset old \ keysFinset new from rfl,
      Finset.mem_sdiff] at ha
    exact ha.2 (hmod a hb).2
  · rw [Finset.disjoint_left]
    intro a ha hb
    rw [show (compare old new order).deleted = keysFinset old \ keysFinset new from rfl,
      Finset.mem_sdiff] at ha
    rw [unchangedKeys, Finset.mem_sdiff, Finset.mem_inter] at hb
    exact ha.2 hb.1.2
  · rw [Finset.disjoint_left]
    intro a ha hb
    rw [unchangedKeys, Finset.mem_sdiff] at hb
    exact hb.2 ha
  · ext a
    have hm := hmod a
    simp only [Finset.mem_union, unchangedKeys,
      show (compare old new order).added = keysFinset new \ keysFinset old from rfl,
      show (compare old new order).deleted = keysFinset old \ keysFinset new from rfl,
      Finset.mem_sdiff, Finset.mem_inter]
    tauto

/-- C3 (witness): the partition union law evaluated on concrete snapshots. -/
theorem C3_witness :
    (compare sampOld sampErr ([] : List String)).added ∪
        (compare sampOld sampErr ([] : List String)).deleted ∪
        (compare sampOld sampErr ([] : List String)).modified.toFinset ∪
        unchangedKeys sampOld sampErr ([] : List String) =
      keysFinset sampOld ∪ keysFinset sampErr :=
  (C3_partition sampOld sampErr ([] : List String)
    ⟨by decide, by decide⟩).2.2.2.2.2.2.2.2.2

/-- C5 (counterexample): the modified list is emitted in the iteration order
of the key-intersection set, with no sorting pass: two valid iteration orders
of the same two snapshots yield the lists with different order; in particular
the order b, a — a legitimate CPython set order — is not sorted by path. -/
theorem C5_counterexample :
    ValidOrder sampOld sampNew ["b", "a"] ∧
    ValidOrder sampOld sampNew ["a", "b"] ∧
    (compare sampOld sampNew ["b", "a"]).modified = ["b", "a"] ∧
    (compare sampOld sampNew ["a", "b"]).modified = ["a", "b"] ∧
    (["b", "a"] : List String) ≠ ["a", "b"] := by
  exact ⟨⟨by decide, by decide⟩, ⟨by decide, by decide⟩, by decide, by decide, by decide⟩

/-- C5 (amended): the modified list is duplicate-free and its underlying set
of paths is determined by the two snapshots alone — any two valid iteration
orders produce the same set — but its order follows the internal set
iteration and is not guaranteed sorted. -/
theorem C5_modified_set_deterministic (old new : Snapshot) (o1 o2 : List String)
    (h1 : ValidOrder old new o1) (h2 : ValidOrder old new o2) :
    (compare old new o1).modified.toFinset =
        (compare old new o2).modified.toFinset ∧
    (compare old new o1).modified.Nodup := by
  constructor
  · ext k
    rw [List.mem_toFinset, List.mem_toFinset, mem_modified, mem_modified,
      validOrder_mem old new o1 h1, validOrder_mem old new o2 h2]
  · exact h1.1.filter _

/-- C5 (witness): on the concrete snapshots, the two valid orders yield the
same set of modified paths. -/
theorem C5_witness :
    (compare sampOld sampNew ["b", "a"]).modified.toFinset =
      (compare sampOld sampNew ["a", "b"]).modified.toFinset :=
  (C5_modified_set_deterministic sampOld sampNew ["b", "a"] ["a", "b"]
    ⟨by decide, by decide⟩ ⟨by decide, by decide⟩).1

/-- C9: comparing a snapshot with itself yields empty added, deleted and
modified, including when the snapshot holds error records, since every key's
hash field equals itself (None equals None for error records). -/
theorem C9_compare_self_empty (s : Snapshot) (order : List String)
    (_hord : ValidOrder s s order) :
    (compare s s order).added = ∅ ∧ (compare s s order).deleted = ∅ ∧
    (compare s s order).modified = [] := by
  refine ⟨Finset.sdiff_self _, Finset.sdiff_self _, ?_⟩
  simp [compare]

/-- C9 (witness): self-comparison of a concrete snapshot holding an error
record reports no change at all. -/
theorem C9_witness :
    (compare sampErr sampErr ["p", "q"]).added = ∅ ∧
    (compare sampErr sampErr ["p", "q"]).deleted = ∅ ∧
    (compare sampErr sampErr ["p", "q"]).modified = [] :=
  C9_compare_self_empty sampErr ["p", "q"] ⟨by decide, by decide⟩

/-- C10: swapping the snapshot arguments swaps added with deleted and keeps
the set of modified paths, whatever valid iteration orders the two runs
use. -/
theorem C10_compare_antisymmetric (a b : Snapshot) (o1 o2 : List String)
    (h1 : ValidOrder a b o1) (h2 : ValidOrder b a o2) :
    (compare a b o1).added = (compare b a o2).deleted ∧
    (compare a b o1).deleted = (compare b a o2).added ∧
    (compare a b o1).modified.toFinset = (compare b a o2).modified.toFinset := by
  refine ⟨rfl, rfl, ?_⟩
  ext k
  rw [List.mem_toFinset, List.mem_toFinset, mem_modified, mem_modified,
    validOrder_mem a b o1 h1, validOrder_mem b a o2 h2]
  constructor
  · rintro ⟨⟨hka, hkb⟩, hne⟩
    exact ⟨⟨hkb, hka⟩, hne.symm⟩
  · rintro ⟨⟨hkb, hka⟩, hne⟩
    exact ⟨⟨hka, hkb⟩, hne.symm⟩

/-- C10 (witness): role-swap on concrete snapshots with an added, a deleted
and a modified path. -/
theorem C10_witness :
    (compare sampOld sampErr ([] : List String)).added =
        (compare sampErr sampOld ([] : List String)).deleted ∧
    (compare sampOld sampErr ([] : List String)).deleted =
        (compare sampErr sampOld ([] : List String)).added ∧
    (compare sampOld sampErr ([] : List String)).modified.toFinset =
      (compare sampErr sampOld ([] : List String)).modified.toFinset :=
  C10_compare_antisymmetric sampOld sampErr ([] : List String)
    ([] : List String) ⟨by decide, by decide⟩ ⟨by decide, by decide⟩

/-- Keys of a scan: exactly the relative paths of the regular-file entries,
in traversal order. -/
theorem scan_directory_keys (M : HashModel) (algo : String)
    (entries : List FSEntry) :
    (scan_directory M algo entries).map Prod.fst =
      (entries.filter fun e => e.isFile).map FSEntry.rel := by
  induction entries with
  | nil => rfl
  | cons e es ih =>
    simp only [scan_directory, List.filterMap_cons, List.filter_cons] at ih ⊢
    by_cases he : e.isFile = true
    · simp [he, ih]
    · simp [he, ih]

/-- Membership in a scan result: a pair is present iff some regular-file
entry produced it. -/
theorem mem_scan_directory (M : HashModel) (algo : String)
    (entries : List FSEntry) (p : String) (r : FileRecord) :
    (p, r) ∈ scan_directory M algo entries ↔
      ∃ e ∈ entries, e.isFile = true ∧ e.rel = p ∧ scanRecord M algo e = r := by
  simp only [scan_directory, List.mem_filterMap]
  constructor
  · rintro ⟨e, he, hf⟩
    by_cases hif : e.isFile = true
    · rw [if_pos hif, Option.some.injEq, Prod.mk.injEq] at hf
      exact ⟨e, he, hif, hf.1, hf.2⟩
    · rw [if_neg hif] at hf
      exact absurd hf (by simp)
  · rintro ⟨e, he, hif, hrel, hrec⟩
    exact ⟨e, he, by rw [if_pos hif, hrel, hrec]⟩

/-- A stat failure is recorded as an error record with the raised message. -/
theorem scanRecord_stat_error (M : HashModel) (algo : String) (e : FSEntry)
    (msg : String) (h : e.statRes = Except.error msg) :
    scanRecord M algo e = FileRecord.err msg := by
  simp [scanRecord, h]

/-- A read failure under a recognized algorithm is recorded as an error
record with the raised message. -/
theorem scanRecord_read_error (M : HashModel) (algo : String) (e : FSEntry)
    (sz : Nat) (mt : Int) (msg : String) (halgo : algo ∈ M.supported)
    (hst : e.statRes = Except.ok (sz, mt)) (hrd : e.content = Except.error msg) :
    scanRecord M algo e = FileRecord.err msg := by
  simp [scanRecord, hst, compute_hash, if_pos halgo, hrd, Except.map]

/-- C6: the scan is total — it returns a snapshot whose keys are exactly the
regular files of the traversal, every regular file gets a record, and an
individual stat or read failure becomes an error record carrying the raised
message instead of aborting the scan. -/
theorem C6_scan_total_error_records (M : HashModel) (algo : String)
    (entries : List FSEntry) :
    (scan_directory M algo entries).map Prod.fst =
        (entries.filter fun e => e.isFile).map FSEntry.rel ∧
    (∀ e ∈ entries, e.isFile = true →
        (e.rel, scanRecord M algo e) ∈ scan_directory M algo entries) ∧
    (∀ e : FSEntry, ∀ msg, e.statRes = Except.error msg →
        scanRecord M algo e = FileRecord.err msg) ∧
    (∀ e : FSEntry, ∀ sz mt msg, algo ∈ M.supported →
        e.statRes = Except.ok (sz, mt) → e.content = Except.error msg →
        scanRecord M algo e = FileRecord.err msg) := by
  refine ⟨scan_directory_keys M algo entries, ?_, ?_, ?_⟩
  · intro e he hif
    exact (mem_scan_directory M algo entries e.rel (scanRecord M algo e)).mpr
      ⟨e, he, hif, rfl, rfl⟩
  · intro e msg h
    exact scanRecord_stat_error M algo e msg h
  · intro e sz mt msg halgo hst hrd
    exact scanRecord_read_error M algo e sz mt msg halgo hst hrd

/-- C6 (witness): scanning one readable and one unreadable file covers both,
with the unreadable one present as an error record. -/
theorem C6_witness :
    (fileBad.rel, scanRecord Mhashlib "sha256" fileBad) ∈
      scan_directory Mhashlib "sha256" [fileA, fileBad] :=
  (C6_scan_total_error_records Mhashlib "sha256" [fileA, fileBad]).2.1 fileBad
    (by decide) rfl

/-- C2 (counterexample): with the unrecognized algorithm name "nope" and a
perfectly readable file, scan_directory completes and returns a snapshot —
the ValueError raised by hashlib.new inside compute_hash is caught by the
per-file try/except (line 46) and stored as that file's error record, so the
operation neither aborts at scan start nor surfaces the failure to the
caller. -/
theorem C2_counterexample :
    "nope" ∉ Mhashlib.supported ∧
    scan_directory Mhashlib "nope" [fileA] =
      [("a.txt", FileRecord.err "unsupported hash type nope")] := by
  exact ⟨by decide, by decide⟩

/-- C2 (amended): with an unrecognized algorithm the scan does not abort: it
completes and returns a snapshot covering every regular file, in which every
record is an error record; a file whose stat succeeded carries exactly the
unsupported-hash-type message. -/
theorem C2_scan_completes_with_error_records (M : HashModel) (algo : String)
    (entries : List FSEntry) (h : algo ∉ M.supported) :
    (scan_directory M algo entries).map Prod.fst =
        (entries.filter fun e => e.isFile).map FSEntry.rel ∧
    (∀ p r, (p, r) ∈ scan_directory M algo entries →
        ∃ msg, r = FileRecord.err msg) ∧
    (∀ e : FSEntry, ∀ sz mt, e.statRes = Except.ok (sz, mt) →
        scanRecord M algo e = FileRecord.err ("unsupported hash type " ++ algo)) := by
  have h3 : ∀ e : FSEntry, ∀ sz mt, e.statRes = Except.ok (sz, mt) →
      scanRecord M algo e = FileRecord.err ("unsupported hash type " ++ algo) := by
    intro e sz mt hst
    simp [scanRecord, hst, compute_hash, if_neg h]
  refine ⟨scan_directory_keys M algo entries, ?_, h3⟩
  intro p r hmem
  rw [mem_scan_directory] at hmem
  obtain ⟨e, _, _, _, hrec⟩ := hmem
  subst hrec
  rcases hrs : e.statRes with msg | v
  · exact ⟨msg, scanRecord_stat_error M algo e msg hrs⟩
  · obtain ⟨sz, mt⟩ := v
    exact ⟨"unsupported hash type " ++ algo, h3 e sz mt hrs⟩

/-- C2 (witness): the amended behavior evaluated on a concrete readable file
and the unrecognized name "nope". -/
theorem C2_witness :
    scanRecord Mhashlib "nope" fileA =
      FileRecord.err ("unsupported hash type " ++ "nope") :=
  (C2_scan_completes_with_error_records Mhashlib "nope" [fileA] (by decide)).2.2
    fileA 5 100 rfl

/-- Folding update over chunks from any accumulated state appends their
concatenation. -/
theorem hashlibFold_append_acc (chunks : List (List Nat)) (acc : List Nat) :
    chunks.foldl (fun a c => a ++ c) acc = acc ++ chunks.flatten := by
  induction chunks generalizing acc with
  | nil => simp
  | cons c cs ih => simp [ih, List.append_assoc]

/-- The streaming state after feeding all chunks is their concatenation. -/
theorem hashlibFold_eq_join (chunks : List (List Nat)) :
    hashlibFold chunks = chunks.flatten := by
  rw [hashlibFold, hashlibFold_append_acc, List.nil_append]

/-- The chunks the read loop produces concatenate back to the input bytes,
for any positive read size. -/
theorem chunkBytesAux_join (c : Nat) (hc : 0 < c) :
    ∀ fuel bytes, bytes.length ≤ fuel →
      (chunkBytesAux fuel c bytes).flatten = bytes := by
  intro fuel
  induction fuel with
  | zero =>
    intro bytes hb
    have hnil : bytes = [] := List.length_eq_zero.mp (Nat.le_zero.mp hb)
    subst hnil
    rfl
  | succ n ih =>
    intro bytes hb
    match bytes with
    | [] => rfl
    | b :: bs =>
      have hlen : ((b :: bs).drop c).length ≤ n := by
        rw [List.length_drop]
        simp only [List.length_cons] at hb ⊢
        omega
      simp only [chunkBytesAux, List.flatten_cons]
      rw [ih _ hlen, List.take_append_drop]

/-- Reassembly of the read loop's chunks. -/
theorem chunkBytes_join (c : Nat) (hc : 0 < c) (bytes : List Nat) :
    (chunkBytes c bytes).flatten = bytes :=
  chunkBytesAux_join c hc bytes.length bytes (Nat.le_refl _)

/-- C8: the digest is a pure fold over the byte stream — the chunked
computation equals the digest of the whole content for every positive read
size, feeding any partition of the bytes block by block gives the same
digest, any two read sizes agree, and compute_hash with a recognized
algorithm returns exactly that digest of the full content. -/
theorem C8_digest_chunk_independent (M : HashModel) (algo : String)
    (bytes : List Nat) (c : Nat) (hc : 0 < c) (blocks : List (List Nat))
    (hb : blocks.flatten = bytes) :
    computeHashChunked M algo c bytes = M.digestOf algo bytes ∧
    M.digestOf algo (hashlibFold blocks) = M.digestOf algo bytes ∧
    (∀ c2, 0 < c2 →
        computeHashChunked M algo c2 bytes = computeHashChunked M algo c bytes) ∧
    (algo ∈ M.supported →
        compute_hash M algo (Except.ok bytes) =
          Except.ok (M.digestOf algo bytes)) := by
  have key : ∀ cc, 0 < cc →
      computeHashChunked M algo cc bytes = M.digestOf algo bytes := by
    intro cc hcc
    rw [computeHashChunked, hashlibFold_eq_join, chunkBytes_join cc hcc]
  refine ⟨key c hc, ?_, ?_, ?_⟩
  · rw [hashlibFold_eq_join, hb]
  · intro c2 hc2
    rw [key c2 hc2, key c hc]
  · intro hs
    simp only [compute_hash, if_pos hs, Except.map]
    rw [key CHUNK_SIZE (by decide)]

/-- C8 (witness): the two-byte-block computation of a five-byte content
equals the one-shot digest. -/
theorem C8_witness :
    computeHashChunked Mhashlib "sha256" 2 [104, 101, 108, 108, 111] =
      Mhashlib.digestOf "sha256" [104, 101, 108, 108, 111] :=
  (C8_digest_chunk_independent Mhashlib "sha256" [104, 101, 108, 108, 111] 2
    (by decide) [[104, 101], [108, 108, 111]] (by decide)).1

/-- C4 (counterexample): cmd_init run on the relative target "data" from the
working directory /home/user records "data" in the baseline metadata, while
the scanner resolves and walks /home/user/data; the recorded root is not the
resolved path, and what it later resolves to depends on the working
directory. -/
theorem C4_counterexample :
    (cmd_init_meta "data" "sha256" 0).base_dir = "data" ∧
    scannerRoot "/home/user" "data" = "/home/user/data" ∧
    (cmd_init_meta "data" "sha256" 0).base_dir ≠ scannerRoot "/home/user" "data" ∧
    scannerRoot "/home/user" "data" ≠ scannerRoot "/srv" "data" := by
  exact ⟨rfl, by decide, by decide, by decide⟩

/-- C4 (amended): the recorded root is the target exactly as given on the
command line, unresolved; it coincides with the root the scanner resolves and
walks only when the target is already an absolute path. -/
theorem C4_recorded_root_unresolved (cwd target algo : String) (now : Int)
    (habs : isAbsolutePath target = true) :
    (cmd_init_meta target algo now).base_dir = target ∧
    (cmd_init_meta target algo now).base_dir = scannerRoot cwd target := by
  refine ⟨rfl, ?_⟩
  simp [cmd_init_meta, scannerRoot, posixResolve, habs]

/-- C4 (witness): an absolute target is recorded verbatim and matches the
scanner's root from any working directory. -/
theorem C4_witness :
    (cmd_init_meta "/etc/app" "sha256" 7).base_dir = "/etc/app" ∧
    (cmd_init_meta "/etc/app" "sha256" 7).base_dir = scannerRoot "/tmp" "/etc/app" :=
  C4_recorded_root_unresolved "/tmp" "/etc/app" "sha256" 7 (by decide)

/-- C7: on the diff cmd_check computes, the clean branch with exit code 0 is
taken iff added, deleted and modified are all empty; otherwise the changed
branch is taken with exit code 2, carrying the three change collections. -/
theorem C7_clean_iff_empty (old new : Snapshot) (order : List String)
    (d : DiffResult) (_hd : d = compare old new order) :
    (check_outcome d = CheckOutcome.clean ↔
        d.added = ∅ ∧ d.deleted = ∅ ∧ d.modified = []) ∧
    (exitCode (check_outcome d) = 0 ↔
        d.added = ∅ ∧ d.deleted = ∅ ∧ d.modified = []) ∧
    (check_outcome d ≠ CheckOutcome.clean →
        check_outcome d = CheckOutcome.changed d.added d.deleted d.modified ∧
        exitCode (check_outcome d) = 2) := by
  by_cases h : d.added = ∅ ∧ d.deleted = ∅ ∧ d.modified = []
  · simp only [check_outcome, if_pos h]
    exact ⟨by simp [h], by simp [exitCode, h], by simp⟩
  · refine ⟨by simp [check_outcome, h], by simp [check_outcome, exitCode, h], ?_⟩
    intro _
    exact ⟨by simp [check_outcome, h], by simp [check_outcome, exitCode, h]⟩

/-- C7 (witness): one added file takes the changed branch with exit code 2
and surfaces the three collections. -/
theorem C7_witness :
    check_outcome (compare ([] : Snapshot) [("a", FileRecord.ok "h" 1 0)]
        ([] : List String)) =
      CheckOutcome.changed
        (compare ([] : Snapshot) [("a", FileRecord.ok "h" 1 0)]
          ([] : List String)).added
        (compare ([] : Snapshot) [("a", FileRecord.ok "h" 1 0)]
          ([] : List String)).deleted
        (compare ([] : Snapshot) [("a", FileRecord.ok "h" 1 0)]
          ([] : List String)).modified ∧
    exitCode (check_outcome (compare ([] : Snapshot)
        [("a", FileRecord.ok "h" 1 0)] ([] : List String))) = 2 :=
  (C7_clean_iff_empty [] [("a", FileRecord.ok "h" 1 0)] [] _ rfl).2.2 (by decide)

end FIC
